import Mathlib

/-!
SecureFlow escrow engine: verification of the milestone lifecycle.

Shallow embedding of the Solidity contract `WorkLifecycle` (src/unnamed/part_001,
lines 1–267), the milestone-based escrow settlement engine of the repository.

Modelling conventions:
* Addresses, timestamps and token amounts are `Nat`.  Solidity 0.8 checked
  arithmetic reverts on `uint256` overflow/underflow; additions in this contract
  act on values bounded by `totalAmount` (itself a valid `uint256` at creation),
  so `Nat` addition is faithful on all states the theorems talk about, while the
  two custody subtractions (`escrowedAmount[e.token] -= …`) are modelled with an
  explicit underflow check that aborts the operation, exactly as the EVM would.
* We model a single escrow together with the slices of contract-global state it
  touches: its custody counter `escrowedAmount[e.token]`, the fee counter
  `totalFeesByToken[e.token]`, and the log of `_transferOut` calls (the funds
  actually leaving custody).  Reputation updates, the GoodDollar reward claim
  (a `try/catch` whose failure only emits an event) and the `completedEscrows`
  counters touch no escrow or custody state and are omitted.
* The modifiers `onlyDepositor`, `onlyBeneficiary` and `onlyEscrowParticipant`
  are declared in `EscrowCore.sol`, which is not part of the sources; they are
  modelled from the spec (§4): depositor-gated, beneficiary-gated, and
  "depositor, beneficiary, or an authorized arbiter" respectively.  `validEscrow`
  (existence of the id) and `whenNotPaused` are modelled away: every operation
  below acts on one existing escrow of an unpaused contract, the setting all
  claims quantify over.  `nonReentrant` needs no model under the spec's strictly
  serialized execution assumption (§5).
* Solidity mappings yield a zero-initialized struct for an unset key; milestone
  reads that bypass the bounds check (`disputeMilestone`, `resolveDispute`)
  therefore read `zeroMilestone`, whose status is the first enum member.
-/

namespace SecureFlow

/-- Milestone status, first member is the Solidity zero value
(spec §3: NotStarted, Submitted, Approved, Rejected, Disputed, Resolved). -/
inductive MilestoneStatus where
  | NotStarted
  | Submitted
  | Approved
  | Rejected
  | Disputed
  | Resolved
deriving DecidableEq, Repr

/-- Escrow status (spec §3: Pending, InProgress, Disputed, Released, Cancelled). -/
inductive EscrowStatus where
  | Pending
  | InProgress
  | Disputed
  | Released
  | Cancelled
deriving DecidableEq, Repr

/-- One milestone record (spec §3; fields as read/written by WorkLifecycle).
`disputedBy` doubles as rejected-by and as the recorded dispute winner, and
`disputeReason` doubles as rejection reason and resolution reason, exactly as
the source comments state (part_001 lines 149–151, 239, 243). -/
structure Milestone where
  description : String
  amount : Nat
  status : MilestoneStatus
  submittedAt : Nat
  approvedAt : Nat
  disputedAt : Nat
  disputedBy : Nat
  disputeReason : String
deriving DecidableEq, Repr

/-- The zero-initialized milestone a Solidity mapping returns for an unset key. -/
def zeroMilestone : Milestone :=
  { description := ""
    amount := 0
    status := MilestoneStatus.NotStarted
    submittedAt := 0
    approvedAt := 0
    disputedAt := 0
    disputedBy := 0
    disputeReason := "" }

/-- One escrow together with the slices of contract-global state its operations
touch (custody counter for its token, fee counter for its token, transfer log). -/
structure EscrowState where
  depositor : Nat
  beneficiary : Nat
  arbiters : List Nat
  totalAmount : Nat
  paidAmount : Nat
  platformFee : Nat
  workStarted : Bool
  status : EscrowStatus
  milestones : List Milestone
  escrowedAmount : Nat
  totalFees : Nat
  transfers : List (Nat × Nat)
deriving DecidableEq, Repr

/-- Typed errors, one per distinct revert in the source (the string after each
constructor is the source's revert message), plus the two modifier failures and
the checked-arithmetic revert. -/
inductive Err where
  | notAuthorized
  | invalidStatus
  | workAlreadyStarted
  | escrowNotActive
  | invalidMilestone
  | alreadyProcessed
  | notSubmitted
  | notRejected
  | disputePeriodExpired
  | notInDispute
  | notDisputed
  | invalidAllocation
  | underflow
deriving DecidableEq, Repr

/-- Modelled from the spec: `DISPUTE_PERIOD` is a constant of `EscrowCore.sol`,
which is not in the sources; the spec (§4.2, §8) treats it as an opaque constant
length of the dispute window.  No theorem below depends on its value. -/
def DISPUTE_PERIOD : Nat := 604800

/-- Source function `startWork` (part_001 lines 8–28): beneficiary-gated; requires status
`Pending` ("Invalid status") and work not started ("Work started"); sets
`workStarted`, moves to `InProgress`, and credits the platform fee counter when
the pre-computed fee is nonzero. -/
def startWork (s : EscrowState) (caller : Nat) : Except Err EscrowState :=
  if caller = s.beneficiary then
    if s.status = EscrowStatus.Pending then
      if s.workStarted = false then
        Except.ok
          { s with
            workStarted := true
            status := EscrowStatus.InProgress
            totalFees :=
              if 0 < s.platformFee then s.totalFees + s.platformFee
              else s.totalFees }
      else Except.error Err.workAlreadyStarted
    else Except.error Err.invalidStatus
  else Except.error Err.notAuthorized

/-- Source function `submitMilestone` (part_001 lines 30–62): beneficiary-gated; requires
escrow `InProgress` ("Invalid status"), a valid index ("Invalid milestone") and
milestone `NotStarted` ("Already submitted/processed"); records the submission
time and overwrites the description only when the argument is nonempty. -/
def submitMilestone (s : EscrowState) (caller now i : Nat) (description : String) :
    Except Err EscrowState :=
  if caller = s.beneficiary then
    if s.status = EscrowStatus.InProgress then
      if i < s.milestones.length then
        if (s.milestones.getD i zeroMilestone).status = MilestoneStatus.NotStarted then
          Except.ok
            { s with
              milestones :=
                s.milestones.set i
                  { s.milestones.getD i zeroMilestone with
                    status := MilestoneStatus.Submitted
                    submittedAt := now
                    description :=
                      if 0 < description.length then description
                      else (s.milestones.getD i zeroMilestone).description } }
        else Except.error Err.alreadyProcessed
      else Except.error Err.invalidMilestone
    else Except.error Err.invalidStatus
  else Except.error Err.notAuthorized

/-- Source function `approveMilestone` (part_001 lines 64–127): depositor-gated; requires escrow
`InProgress` ("Escrow not active"), a valid index, milestone `Submitted` ("Not
submitted"); marks it `Approved`, adds its amount to `paidAmount`, releases it
from custody (checked subtraction), transfers it out to the beneficiary, and
releases the escrow when `paidAmount` reaches `totalAmount`.  The reward-claim
`try/catch` and the reputation/`completedEscrows` updates touch no modelled
state and are omitted (their arguments `validUntilBlock`/`signature` with them). -/
def approveMilestone (s : EscrowState) (caller now i : Nat) : Except Err EscrowState :=
  if caller = s.depositor then
    if s.status = EscrowStatus.InProgress then
      if i < s.milestones.length then
        if (s.milestones.getD i zeroMilestone).status = MilestoneStatus.Submitted then
          if (s.milestones.getD i zeroMilestone).amount ≤ s.escrowedAmount then
            Except.ok
              (let amount := (s.milestones.getD i zeroMilestone).amount
               let s' :=
                 { s with
                   milestones :=
                     s.milestones.set i
                       { s.milestones.getD i zeroMilestone with
                         status := MilestoneStatus.Approved
                         approvedAt := now }
                   paidAmount := s.paidAmount + amount
                   escrowedAmount := s.escrowedAmount - amount
                   transfers := s.transfers ++ [(s.beneficiary, amount)] }
               if s'.paidAmount = s'.totalAmount then
                 { s' with status := EscrowStatus.Released }
               else s')
          else Except.error Err.underflow
        else Except.error Err.notSubmitted
      else Except.error Err.invalidMilestone
    else Except.error Err.escrowNotActive
  else Except.error Err.notAuthorized

/-- Source function `rejectMilestone` (part_001 lines 129–154): depositor-gated; requires escrow
`InProgress` ("Escrow not active"), a valid index, milestone `Submitted` ("Not
submitted"); marks it `Rejected`, reusing the dispute fields for the rejection
record; no funds move. -/
def rejectMilestone (s : EscrowState) (caller now i : Nat) (reason : String) :
    Except Err EscrowState :=
  if caller = s.depositor then
    if s.status = EscrowStatus.InProgress then
      if i < s.milestones.length then
        if (s.milestones.getD i zeroMilestone).status = MilestoneStatus.Submitted then
          Except.ok
            { s with
              milestones :=
                s.milestones.set i
                  { s.milestones.getD i zeroMilestone with
                    status := MilestoneStatus.Rejected
                    disputedAt := now
                    disputedBy := caller
                    disputeReason := reason } }
        else Except.error Err.notSubmitted
      else Except.error Err.invalidMilestone
    else Except.error Err.escrowNotActive
  else Except.error Err.notAuthorized

/-- Source function `resubmitMilestone` (part_001 lines 156–186): beneficiary-gated; requires
escrow `InProgress` ("Escrow not active"), a valid index, milestone `Rejected`
("Not rejected"); back to `Submitted` with a fresh submission time, overwriting
the description only when nonempty. -/
def resubmitMilestone (s : EscrowState) (caller now i : Nat) (description : String) :
    Except Err EscrowState :=
  if caller = s.beneficiary then
    if s.status = EscrowStatus.InProgress then
      if i < s.milestones.length then
        if (s.milestones.getD i zeroMilestone).status = MilestoneStatus.Rejected then
          Except.ok
            { s with
              milestones :=
                s.milestones.set i
                  { s.milestones.getD i zeroMilestone with
                    status := MilestoneStatus.Submitted
                    submittedAt := now
                    description :=
                      if 0 < description.length then description
                      else (s.milestones.getD i zeroMilestone).description } }
        else Except.error Err.notRejected
      else Except.error Err.invalidMilestone
    else Except.error Err.invalidStatus
  else Except.error Err.notAuthorized

/-- Source function `disputeMilestone` (part_001 lines 188–216): depositor-gated; requires the
milestone `Submitted` ("Not submitted") and the call to fall inside the dispute
window ("Dispute period expired").  Note: the source checks neither the escrow
status nor the milestone index (a mapping read of an unset index yields the
zero struct, which fails the `Submitted` check); the escrow is moved to
`Disputed` unconditionally on success. -/
def disputeMilestone (s : EscrowState) (caller now i : Nat) (reason : String) :
    Except Err EscrowState :=
  if caller = s.depositor then
    if (s.milestones.getD i zeroMilestone).status = MilestoneStatus.Submitted then
      if now ≤ (s.milestones.getD i zeroMilestone).submittedAt + DISPUTE_PERIOD then
        Except.ok
          { s with
            milestones :=
              s.milestones.set i
                { s.milestones.getD i zeroMilestone with
                  status := MilestoneStatus.Disputed
                  disputedAt := now
                  disputedBy := caller
                  disputeReason := reason }
            status := EscrowStatus.Disputed }
      else Except.error Err.disputePeriodExpired
    else Except.error Err.notSubmitted
  else Except.error Err.notAuthorized

/-- Source function `resolveDispute` (part_001 lines 218–266): participant-gated (depositor,
beneficiary or arbiter, modelled from the spec since `onlyEscrowParticipant`
lives in EscrowCore.sol); requires escrow `Disputed` ("Not in dispute"),
milestone `Disputed` ("Not disputed"; no bounds check in the source) and
`beneficiaryAmount ≤ amount` ("Invalid allocation").  Marks the milestone
`Resolved`, records the winner (`beneficiaryAmount > refundAmount` picks the
beneficiary, otherwise the depositor), pays the beneficiary share (added to
`paidAmount`) and refunds the rest to the depositor (not added to
`paidAmount`), each transfer guarded by its `> 0` test as in the source, then
returns the escrow to `InProgress` and re-releases it when fully paid. -/
def resolveDispute (s : EscrowState) (caller now i b : Nat) (reason : String) :
    Except Err EscrowState :=
  if caller = s.depositor ∨ caller = s.beneficiary ∨ caller ∈ s.arbiters then
    if s.status = EscrowStatus.Disputed then
      if (s.milestones.getD i zeroMilestone).status = MilestoneStatus.Disputed then
        if b ≤ (s.milestones.getD i zeroMilestone).amount then
          let amount := (s.milestones.getD i zeroMilestone).amount
          let refund := amount - b
          let s1 :=
            { s with
              milestones :=
                s.milestones.set i
                  { s.milestones.getD i zeroMilestone with
                    status := MilestoneStatus.Resolved
                    approvedAt := now
                    disputeReason := reason
                    disputedBy := if refund < b then s.beneficiary else s.depositor } }
          if 0 < b then
            if b ≤ s1.escrowedAmount then
              let s2 :=
                { s1 with
                  paidAmount := s1.paidAmount + b
                  escrowedAmount := s1.escrowedAmount - b
                  transfers := s1.transfers ++ [(s.beneficiary, b)] }
              if 0 < refund then
                if refund ≤ s2.escrowedAmount then
                  let s3 :=
                    { s2 with
                      escrowedAmount := s2.escrowedAmount - refund
                      transfers := s2.transfers ++ [(s.depositor, refund)] }
                  if s3.paidAmount = s3.totalAmount then
                    Except.ok { s3 with status := EscrowStatus.Released }
                  else Except.ok { s3 with status := EscrowStatus.InProgress }
                else Except.error Err.underflow
              else
                if s2.paidAmount = s2.totalAmount then
                  Except.ok { s2 with status := EscrowStatus.Released }
                else Except.ok { s2 with status := EscrowStatus.InProgress }
            else Except.error Err.underflow
          else
            if 0 < refund then
              if refund ≤ s1.escrowedAmount then
                let s3 :=
                  { s1 with
                    escrowedAmount := s1.escrowedAmount - refund
                    transfers := s1.transfers ++ [(s.depositor, refund)] }
                if s3.paidAmount = s3.totalAmount then
                  Except.ok { s3 with status := EscrowStatus.Released }
                else Except.ok { s3 with status := EscrowStatus.InProgress }
              else Except.error Err.underflow
            else
              if s1.paidAmount = s1.totalAmount then
                Except.ok { s1 with status := EscrowStatus.Released }
              else Except.ok { s1 with status := EscrowStatus.InProgress }
        else Except.error Err.invalidAllocation
      else Except.error Err.notDisputed
    else Except.error Err.notInDispute
  else Except.error Err.notAuthorized

/-- One external call into the engine, with its caller and `block.timestamp`. -/
inductive Op where
  | startWork (caller now : Nat)
  | submitMilestone (caller now i : Nat) (d : String)
  | approveMilestone (caller now i : Nat)
  | rejectMilestone (caller now i : Nat) (r : String)
  | resubmitMilestone (caller now i : Nat) (d : String)
  | disputeMilestone (caller now i : Nat) (r : String)
  | resolveDispute (caller now i b : Nat) (r : String)
deriving DecidableEq, Repr

/-- Dispatch one call to the corresponding contract function. -/
def execOp (s : EscrowState) : Op → Except Err EscrowState
  | Op.startWork c _ => startWork s c
  | Op.submitMilestone c n i d => submitMilestone s c n i d
  | Op.approveMilestone c n i => approveMilestone s c n i
  | Op.rejectMilestone c n i r => rejectMilestone s c n i r
  | Op.resubmitMilestone c n i d => resubmitMilestone s c n i d
  | Op.disputeMilestone c n i r => disputeMilestone s c n i r
  | Op.resolveDispute c n i b r => resolveDispute s c n i b r

/-- Transaction semantics: a reverted call leaves the state untouched. -/
def stepTx (s : EscrowState) (o : Op) : EscrowState :=
  match execOp s o with
  | Except.ok t => t
  | Except.error _ => s

/-- Run a sequence of calls under transaction semantics. -/
def runOps (s : EscrowState) (ops : List Op) : EscrowState :=
  ops.foldl stepTx s

/-- Modelled from the spec: `createEscrow` lives in `EscrowCore.sol`, which is
not among the sources (only `WorkLifecycle` and the frontend caller are).  Per
the spec (§3), an escrow is created on funding: status `Pending`, work not
started, nothing paid, a fixed array of milestones whose amounts sum to
`total_amount`, and the deposited `total_amount` moved into custody under this
escrow.  Fee and transfer slices start empty for this escrow's engagement. -/
def FreshEscrow (s : EscrowState) : Prop :=
  s.status = EscrowStatus.Pending ∧
  s.workStarted = false ∧
  s.paidAmount = 0 ∧
  s.totalAmount = ((s.milestones.map Milestone.amount).sum) ∧
  s.escrowedAmount = s.totalAmount ∧
  (∀ m ∈ s.milestones, m.status = MilestoneStatus.NotStarted) ∧
  s.transfers = [] ∧
  s.totalFees = 0

instance (s : EscrowState) : Decidable (FreshEscrow s) := by
  unfold FreshEscrow; infer_instance

/-- States reachable from a freshly created escrow through successful calls
(reverted calls leave the state unchanged, so they need no rule). -/
inductive Reachable : EscrowState → Prop where
  | init {s} : FreshEscrow s → Reachable s
  | step {s o t} : Reachable s → execOp s o = Except.ok t → Reachable t

/-- Sum of a milestone attribute over the escrow's milestone array. -/
def sumBy (f : Milestone → Nat) (ms : List Milestone) : Nat :=
  (ms.map f).sum

/-- How much of a milestone's amount has been added to `paidAmount` so far is
bounded by `paidCap`: the full amount once the milestone is `Approved` or
`Resolved`, nothing before. -/
def paidCap (m : Milestone) : Nat :=
  match m.status with
  | MilestoneStatus.Approved => m.amount
  | MilestoneStatus.Resolved => m.amount
  | _ => 0

/-- The part of a milestone's amount still in custody. -/
def unpaidCap (m : Milestone) : Nat :=
  match m.status with
  | MilestoneStatus.Approved => 0
  | MilestoneStatus.Resolved => 0
  | _ => m.amount

/-- The conservation invariant maintained by every operation:
the milestone amounts sum to `totalAmount`; `paidAmount` never exceeds the
total amount of milestones already paid out; the custody counter holds exactly
the amounts of the milestones not yet paid out; and a `Released` escrow is
fully paid. -/
def Inv (s : EscrowState) : Prop :=
  sumBy Milestone.amount s.milestones = s.totalAmount ∧
  s.paidAmount ≤ sumBy paidCap s.milestones ∧
  s.escrowedAmount = sumBy unpaidCap s.milestones ∧
  (s.status = EscrowStatus.Released → s.paidAmount = s.totalAmount)

instance (s : EscrowState) : Decidable (Inv s) := by
  unfold Inv; infer_instance

theorem getD_mem : ∀ {ms : List Milestone} {i : Nat}, i < ms.length →
    ms.getD i zeroMilestone ∈ ms
  | m :: _, 0, _ => List.mem_cons_self _ _
  | _ :: ms, i + 1, h =>
      List.mem_cons_of_mem _ (getD_mem (by simpa using h))

theorem sumBy_set (f : Milestone → Nat) :
    ∀ (ms : List Milestone) (i : Nat) (m' : Milestone), i < ms.length →
      sumBy f (ms.set i m') + f (ms.getD i zeroMilestone) = sumBy f ms + f m'
  | [], i, _, h => absurd h (by simp)
  | m :: ms, 0, m', _ => by simp [sumBy]; omega
  | m :: ms, i + 1, m', h => by
      have ih := sumBy_set f ms i m' (by simpa using h)
      simp only [List.set_cons_succ, sumBy, List.map_cons, List.sum_cons,
        List.getD_cons_succ] at ih ⊢
      omega

theorem map_set_congr (f : Milestone → Nat) :
    ∀ (ms : List Milestone) (i : Nat) (m' : Milestone),
      f m' = f (ms.getD i zeroMilestone) → (ms.set i m').map f = ms.map f
  | [], _, _, _ => by simp
  | m :: ms, 0, m', h => by simp_all
  | m :: ms, i + 1, m', h => by
      simp only [List.set_cons_succ, List.map_cons]
      rw [map_set_congr f ms i m' (by simpa using h)]

theorem le_sumBy (f : Milestone → Nat) {m : Milestone} :
    ∀ {ms : List Milestone}, m ∈ ms → f m ≤ sumBy f ms := by
  intro ms h
  induction ms with
  | nil => cases h
  | cons a tl ih =>
      rcases List.mem_cons.1 h with h' | h'
      · subst h'; simp [sumBy]
      · have := ih h'
        simp only [sumBy, List.map_cons, List.sum_cons] at this ⊢
        omega

theorem sumBy_mono (f g : Milestone → Nat) {ms : List Milestone}
    (h : ∀ m ∈ ms, f m ≤ g m) : sumBy f ms ≤ sumBy g ms := by
  induction ms with
  | nil => simp [sumBy]
  | cons a tl ih =>
      have h1 := h a (List.mem_cons_self _ _)
      have h2 := ih fun m hm => h m (List.mem_cons_of_mem _ hm)
      simp only [sumBy, List.map_cons, List.sum_cons] at h2 ⊢
      omega

theorem sumBy_pointwise_eq (f g : Milestone → Nat) {ms : List Milestone}
    (hle : ∀ m ∈ ms, f m ≤ g m) (hsum : sumBy g ms ≤ sumBy f ms) :
    ∀ m ∈ ms, f m = g m := by
  induction ms with
  | nil => intro m hm; cases hm
  | cons a tl ih =>
      have h1 := hle a (List.mem_cons_self _ _)
      have htl : ∀ m ∈ tl, f m ≤ g m := fun m hm => hle m (List.mem_cons_of_mem _ hm)
      have h2 : sumBy f tl ≤ sumBy g tl := sumBy_mono f g htl
      have hsum' : sumBy g tl ≤ sumBy f tl := by
        simp only [sumBy, List.map_cons, List.sum_cons] at hsum h2 ⊢
        omega
      intro m hm
      rcases List.mem_cons.1 hm with h' | h'
      · subst h'
        simp only [sumBy, List.map_cons, List.sum_cons] at hsum h2
        omega
      · exact ih htl hsum' m h'

/-- Post-state of a successful `startWork`. -/
def startWorkResult (s : EscrowState) : EscrowState :=
  { s with
    workStarted := true
    status := EscrowStatus.InProgress
    totalFees :=
      if 0 < s.platformFee then s.totalFees + s.platformFee else s.totalFees }

theorem startWork_ok {s : EscrowState} {c : Nat} {t : EscrowState}
    (h : startWork s c = Except.ok t) :
    c = s.beneficiary ∧ s.status = EscrowStatus.Pending ∧ s.workStarted = false ∧
    t = startWorkResult s := by
  unfold startWork at h
  by_cases h1 : c = s.beneficiary
  · rw [if_pos h1] at h
    by_cases h2 : s.status = EscrowStatus.Pending
    · rw [if_pos h2] at h
      by_cases h3 : s.workStarted = false
      · rw [if_pos h3] at h
        cases h
        exact ⟨h1, h2, h3, rfl⟩
      · rw [if_neg h3] at h; cases h
    · rw [if_neg h2] at h; cases h
  · rw [if_neg h1] at h; cases h

theorem startWork_eq_ok {s : EscrowState} {c : Nat}
    (h1 : c = s.beneficiary) (h2 : s.status = EscrowStatus.Pending)
    (h3 : s.workStarted = false) :
    startWork s c = Except.ok (startWorkResult s) := by
  unfold startWork
  rw [if_pos h1, if_pos h2, if_pos h3]
  rfl

/-- Post-state of a successful `submitMilestone`, and (from `Rejected`) of a
successful `resubmitMilestone`: both set the same fields the same way. -/
def submitResult (s : EscrowState) (now i : Nat) (d : String) : EscrowState :=
  { s with
    milestones :=
      s.milestones.set i
        { s.milestones.getD i zeroMilestone with
          status := MilestoneStatus.Submitted
          submittedAt := now
          description :=
            if 0 < d.length then d
            else (s.milestones.getD i zeroMilestone).description } }

theorem submitMilestone_ok {s : EscrowState} {c n i : Nat} {d : String} {t : EscrowState}
    (h : submitMilestone s c n i d = Except.ok t) :
    c = s.beneficiary ∧ s.status = EscrowStatus.InProgress ∧ i < s.milestones.length ∧
    (s.milestones.getD i zeroMilestone).status = MilestoneStatus.NotStarted ∧
    t = submitResult s n i d := by
  unfold submitMilestone at h
  by_cases h1 : c = s.beneficiary
  · rw [if_pos h1] at h
    by_cases h2 : s.status = EscrowStatus.InProgress
    · rw [if_pos h2] at h
      by_cases h3 : i < s.milestones.length
      · rw [if_pos h3] at h
        by_cases h4 : (s.milestones.getD i zeroMilestone).status = MilestoneStatus.NotStarted
        · rw [if_pos h4] at h
          cases h
          exact ⟨h1, h2, h3, h4, rfl⟩
        · rw [if_neg h4] at h; cases h
      · rw [if_neg h3] at h; cases h
    · rw [if_neg h2] at h; cases h
  · rw [if_neg h1] at h; cases h

theorem submitMilestone_eq_ok {s : EscrowState} {c n i : Nat} {d : String}
    (h1 : c = s.beneficiary) (h2 : s.status = EscrowStatus.InProgress)
    (h3 : i < s.milestones.length)
    (h4 : (s.milestones.getD i zeroMilestone).status = MilestoneStatus.NotStarted) :
    submitMilestone s c n i d = Except.ok (submitResult s n i d) := by
  unfold submitMilestone
  rw [if_pos h1, if_pos h2, if_pos h3, if_pos h4]
  rfl

/-- Post-state of a successful `rejectMilestone`. -/
def rejectResult (s : EscrowState) (caller now i : Nat) (r : String) : EscrowState :=
  { s with
    milestones :=
      s.milestones.set i
        { s.milestones.getD i zeroMilestone with
          status := MilestoneStatus.Rejected
          disputedAt := now
          disputedBy := caller
          disputeReason := r } }

theorem rejectMilestone_ok {s : EscrowState} {c n i : Nat} {r : String} {t : EscrowState}
    (h : rejectMilestone s c n i r = Except.ok t) :
    c = s.depositor ∧ s.status = EscrowStatus.InProgress ∧ i < s.milestones.length ∧
    (s.milestones.getD i zeroMilestone).status = MilestoneStatus.Submitted ∧
    t = rejectResult s c n i r := by
  unfold rejectMilestone at h
  by_cases h1 : c = s.depositor
  · rw [if_pos h1] at h
    by_cases h2 : s.status = EscrowStatus.InProgress
    · rw [if_pos h2] at h
      by_cases h3 : i < s.milestones.length
      · rw [if_pos h3] at h
        by_cases h4 : (s.milestones.getD i zeroMilestone).status = MilestoneStatus.Submitted
        · rw [if_pos h4] at h
          cases h
          exact ⟨h1, h2, h3, h4, rfl⟩
        · rw [if_neg h4] at h; cases h
      · rw [if_neg h3] at h; cases h
    · rw [if_neg h2] at h; cases h
  · rw [if_neg h1] at h; cases h

theorem rejectMilestone_eq_ok {s : EscrowState} {c n i : Nat} {r : String}
    (h1 : c = s.depositor) (h2 : s.status = EscrowStatus.InProgress)
    (h3 : i < s.milestones.length)
    (h4 : (s.milestones.getD i zeroMilestone).status = MilestoneStatus.Submitted) :
    rejectMilestone s c n i r = Except.ok (rejectResult s c n i r) := by
  unfold rejectMilestone
  rw [if_pos h1, if_pos h2, if_pos h3, if_pos h4]
  rfl

theorem resubmitMilestone_ok {s : EscrowState} {c n i : Nat} {d : String} {t : EscrowState}
    (h : resubmitMilestone s c n i d = Except.ok t) :
    c = s.beneficiary ∧ s.status = EscrowStatus.InProgress ∧ i < s.milestones.length ∧
    (s.milestones.getD i zeroMilestone).status = MilestoneStatus.Rejected ∧
    t = submitResult s n i d := by
  unfold resubmitMilestone at h
  by_cases h1 : c = s.beneficiary
  · rw [if_pos h1] at h
    by_cases h2 : s.status = EscrowStatus.InProgress
    · rw [if_pos h2] at h
      by_cases h3 : i < s.milestones.length
      · rw [if_pos h3] at h
        by_cases h4 : (s.milestones.getD i zeroMilestone).status = MilestoneStatus.Rejected
        · rw [if_pos h4] at h
          cases h
          exact ⟨h1, h2, h3, h4, rfl⟩
        · rw [if_neg h4] at h; cases h
      · rw [if_neg h3] at h; cases h
    · rw [if_neg h2] at h; cases h
  · rw [if_neg h1] at h; cases h

theorem resubmitMilestone_eq_ok {s : EscrowState} {c n i : Nat} {d : String}
    (h1 : c = s.beneficiary) (h2 : s.status = EscrowStatus.InProgress)
    (h3 : i < s.milestones.length)
    (h4 : (s.milestones.getD i zeroMilestone).status = MilestoneStatus.Rejected) :
    resubmitMilestone s c n i d = Except.ok (submitResult s n i d) := by
  unfold resubmitMilestone
  rw [if_pos h1, if_pos h2, if_pos h3, if_pos h4]
  rfl

/-- Post-state of a successful `disputeMilestone`: the milestone and the whole
escrow both become `Disputed`. -/
def disputeResult (s : EscrowState) (caller now i : Nat) (r : String) : EscrowState :=
  { s with
    milestones :=
      s.milestones.set i
        { s.milestones.getD i zeroMilestone with
          status := MilestoneStatus.Disputed
          disputedAt := now
          disputedBy := caller
          disputeReason := r }
    status := EscrowStatus.Disputed }

theorem disputeMilestone_ok {s : EscrowState} {c n i : Nat} {r : String} {t : EscrowState}
    (h : disputeMilestone s c n i r = Except.ok t) :
    c = s.depositor ∧
    (s.milestones.getD i zeroMilestone).status = MilestoneStatus.Submitted ∧
    n ≤ (s.milestones.getD i zeroMilestone).submittedAt + DISPUTE_PERIOD ∧
    t = disputeResult s c n i r := by
  unfold disputeMilestone at h
  by_cases h1 : c = s.depositor
  · rw [if_pos h1] at h
    by_cases h2 : (s.milestones.getD i zeroMilestone).status = MilestoneStatus.Submitted
    · rw [if_pos h2] at h
      by_cases h3 : n ≤ (s.milestones.getD i zeroMilestone).submittedAt + DISPUTE_PERIOD
      · rw [if_pos h3] at h
        cases h
        exact ⟨h1, h2, h3, rfl⟩
      · rw [if_neg h3] at h; cases h
    · rw [if_neg h2] at h; cases h
  · rw [if_neg h1] at h; cases h

theorem disputeMilestone_eq_ok {s : EscrowState} {c n i : Nat} {r : String}
    (h1 : c = s.depositor)
    (h2 : (s.milestones.getD i zeroMilestone).status = MilestoneStatus.Submitted)
    (h3 : n ≤ (s.milestones.getD i zeroMilestone).submittedAt + DISPUTE_PERIOD) :
    disputeMilestone s c n i r = Except.ok (disputeResult s c n i r) := by
  unfold disputeMilestone
  rw [if_pos h1, if_pos h2, if_pos h3]
  rfl

/-- A dispute attempted one instant after the window closes reverts with the
window-expiry error. -/
theorem disputeMilestone_window_expired {s : EscrowState} {c n i : Nat} {r : String}
    (h1 : c = s.depositor)
    (h2 : (s.milestones.getD i zeroMilestone).status = MilestoneStatus.Submitted)
    (h3 : ¬ n ≤ (s.milestones.getD i zeroMilestone).submittedAt + DISPUTE_PERIOD) :
    disputeMilestone s c n i r = Except.error Err.disputePeriodExpired := by
  unfold disputeMilestone
  rw [if_pos h1, if_pos h2, if_neg h3]

/-- Post-state of a successful `approveMilestone`: the milestone is paid in
full and the escrow is released exactly when it thereby becomes fully paid. -/
def approveResult (s : EscrowState) (now i : Nat) : EscrowState :=
  { s with
    milestones :=
      s.milestones.set i
        { s.milestones.getD i zeroMilestone with
          status := MilestoneStatus.Approved
          approvedAt := now }
    paidAmount := s.paidAmount + (s.milestones.getD i zeroMilestone).amount
    escrowedAmount := s.escrowedAmount - (s.milestones.getD i zeroMilestone).amount
    transfers := s.transfers ++ [(s.beneficiary, (s.milestones.getD i zeroMilestone).amount)]
    status :=
      if s.paidAmount + (s.milestones.getD i zeroMilestone).amount = s.totalAmount then
        EscrowStatus.Released
      else EscrowStatus.InProgress }

theorem approveMilestone_ok {s : EscrowState} {c n i : Nat} {t : EscrowState}
    (h : approveMilestone s c n i = Except.ok t) :
    c = s.depositor ∧ s.status = EscrowStatus.InProgress ∧ i < s.milestones.length ∧
    (s.milestones.getD i zeroMilestone).status = MilestoneStatus.Submitted ∧
    (s.milestones.getD i zeroMilestone).amount ≤ s.escrowedAmount ∧
    t = approveResult s n i := by
  unfold approveMilestone at h
  by_cases h1 : c = s.depositor
  · rw [if_pos h1] at h
    by_cases h2 : s.status = EscrowStatus.InProgress
    · rw [if_pos h2] at h
      by_cases h3 : i < s.milestones.length
      · rw [if_pos h3] at h
        by_cases h4 : (s.milestones.getD i zeroMilestone).status = MilestoneStatus.Submitted
        · rw [if_pos h4] at h
          by_cases h5 : (s.milestones.getD i zeroMilestone).amount ≤ s.escrowedAmount
          · rw [if_pos h5] at h
            cases h
            refine ⟨h1, h2, h3, h4, h5, ?_⟩
            unfold approveResult
            dsimp only
            split
            · rfl
            · rw [h2]
          · rw [if_neg h5] at h; cases h
        · rw [if_neg h4] at h; cases h
      · rw [if_neg h3] at h; cases h
    · rw [if_neg h2] at h; cases h
  · rw [if_neg h1] at h; cases h

theorem approveMilestone_eq_ok {s : EscrowState} {c n i : Nat}
    (h1 : c = s.depositor) (h2 : s.status = EscrowStatus.InProgress)
    (h3 : i < s.milestones.length)
    (h4 : (s.milestones.getD i zeroMilestone).status = MilestoneStatus.Submitted)
    (h5 : (s.milestones.getD i zeroMilestone).amount ≤ s.escrowedAmount) :
    approveMilestone s c n i = Except.ok (approveResult s n i) := by
  unfold approveMilestone
  rw [if_pos h1, if_pos h2, if_pos h3, if_pos h4, if_pos h5]
  unfold approveResult
  congr 1
  dsimp only
  split
  · rfl
  · rw [h2]

/-- Post-state of a successful `resolveDispute`, written uniformly over the four
transfer branches of the source: the milestone becomes `Resolved` with the
recorded winner, `paidAmount` gains exactly the beneficiary share, the full
milestone amount leaves custody, the two conditional transfers are logged, and
the escrow returns to `InProgress` unless it thereby became fully paid. -/
def resolveResult (s : EscrowState) (now i b : Nat) (r : String) : EscrowState :=
  { s with
    milestones :=
      s.milestones.set i
        { s.milestones.getD i zeroMilestone with
          status := MilestoneStatus.Resolved
          approvedAt := now
          disputeReason := r
          disputedBy :=
            if (s.milestones.getD i zeroMilestone).amount - b < b then s.beneficiary
            else s.depositor }
    paidAmount := s.paidAmount + b
    escrowedAmount := s.escrowedAmount - (s.milestones.getD i zeroMilestone).amount
    transfers :=
      s.transfers ++ (if 0 < b then [(s.beneficiary, b)] else []) ++
        (if 0 < (s.milestones.getD i zeroMilestone).amount - b then
          [(s.depositor, (s.milestones.getD i zeroMilestone).amount - b)]
        else [])
    status :=
      if s.paidAmount + b = s.totalAmount then EscrowStatus.Released
      else EscrowStatus.InProgress }

theorem resolveDispute_eq_ok {s : EscrowState} {c n i b : Nat} {r : String}
    (h1 : c = s.depositor ∨ c = s.beneficiary ∨ c ∈ s.arbiters)
    (h2 : s.status = EscrowStatus.Disputed)
    (h3 : (s.milestones.getD i zeroMilestone).status = MilestoneStatus.Disputed)
    (h4 : b ≤ (s.milestones.getD i zeroMilestone).amount)
    (h5 : (s.milestones.getD i zeroMilestone).amount ≤ s.escrowedAmount) :
    resolveDispute s c n i b r = Except.ok (resolveResult s n i b r) := by
  unfold resolveDispute resolveResult
  rw [if_pos h1, if_pos h2, if_pos h3, if_pos h4]
  dsimp only
  by_cases hb : 0 < b
  · rw [if_pos hb, if_pos (show b ≤ s.escrowedAmount by omega)]
    by_cases hr : 0 < (s.milestones.getD i zeroMilestone).amount - b
    · rw [if_pos hr,
        if_pos (show (s.milestones.getD i zeroMilestone).amount - b ≤ s.escrowedAmount - b
          by omega)]
      rw [if_pos hb, if_pos hr]
      split <;> (congr 1; congr 1 <;> omega)
    · rw [if_neg hr, if_pos hb, if_neg hr]
      have hab : (s.milestones.getD i zeroMilestone).amount = b := by omega
      split <;> (congr 1; congr 1 <;> first | rfl | omega | simp)
  · have hb0 : b = 0 := by omega
    subst hb0
    rw [if_neg hb, if_neg hb]
    simp only [Nat.sub_zero, Nat.add_zero, List.append_nil]
    by_cases hr : 0 < (s.milestones.getD i zeroMilestone).amount
    · rw [if_pos hr, if_pos h5, if_pos hr]
      split <;> rfl
    · rw [if_neg hr, if_neg hr]
      have hab : (s.milestones.getD i zeroMilestone).amount = 0 := by omega
      split <;> (congr 1; congr 1 <;> first | rfl | omega | simp)

theorem resolveDispute_ok {s : EscrowState} {c n i b : Nat} {r : String} {t : EscrowState}
    (h : resolveDispute s c n i b r = Except.ok t) :
    (c = s.depositor ∨ c = s.beneficiary ∨ c ∈ s.arbiters) ∧
    s.status = EscrowStatus.Disputed ∧
    (s.milestones.getD i zeroMilestone).status = MilestoneStatus.Disputed ∧
    b ≤ (s.milestones.getD i zeroMilestone).amount ∧
    (s.milestones.getD i zeroMilestone).amount ≤ s.escrowedAmount ∧
    t = resolveResult s n i b r := by
  have h0 := h
  unfold resolveDispute at h
  by_cases h1 : c = s.depositor ∨ c = s.beneficiary ∨ c ∈ s.arbiters
  · rw [if_pos h1] at h
    by_cases h2 : s.status = EscrowStatus.Disputed
    · rw [if_pos h2] at h
      by_cases h3 : (s.milestones.getD i zeroMilestone).status = MilestoneStatus.Disputed
      · rw [if_pos h3] at h
        by_cases h4 : b ≤ (s.milestones.getD i zeroMilestone).amount
        · rw [if_pos h4] at h
          dsimp only at h
          have h5 : (s.milestones.getD i zeroMilestone).amount ≤ s.escrowedAmount := by
            by_cases hb : 0 < b
            · rw [if_pos hb] at h
              by_cases hc : b ≤ s.escrowedAmount
              · rw [if_pos hc] at h
                by_cases hr : 0 < (s.milestones.getD i zeroMilestone).amount - b
                · rw [if_pos hr] at h
                  by_cases hd :
                      (s.milestones.getD i zeroMilestone).amount - b ≤ s.escrowedAmount - b
                  · omega
                  · rw [if_neg hd] at h; cases h
                · omega
              · rw [if_neg hc] at h; cases h
            · by_cases hr : 0 < (s.milestones.getD i zeroMilestone).amount - b
              · rw [if_neg hb, if_pos hr] at h
                by_cases hc : (s.milestones.getD i zeroMilestone).amount - b ≤ s.escrowedAmount
                · omega
                · rw [if_neg hc] at h; cases h
              · omega
          refine ⟨h1, h2, h3, h4, h5, ?_⟩
          have he := @resolveDispute_eq_ok s c n i b r h1 h2 h3 h4 h5
          rw [h0] at he
          cases he
          rfl
        · rw [if_neg h4] at h; cases h
      · rw [if_neg h3] at h; cases h
    · rw [if_neg h2] at h; cases h
  · rw [if_neg h1] at h; cases h

/-- Calling `resolveDispute` with an allocation exceeding the milestone amount reverts
with "Invalid allocation", before any state is touched. -/
theorem resolveDispute_invalid_allocation {s : EscrowState} {c n i b : Nat} {r : String}
    (h1 : c = s.depositor ∨ c = s.beneficiary ∨ c ∈ s.arbiters)
    (h2 : s.status = EscrowStatus.Disputed)
    (h3 : (s.milestones.getD i zeroMilestone).status = MilestoneStatus.Disputed)
    (h4 : ¬ b ≤ (s.milestones.getD i zeroMilestone).amount) :
    resolveDispute s c n i b r = Except.error Err.invalidAllocation := by
  unfold resolveDispute
  rw [if_pos h1, if_pos h2, if_pos h3, if_neg h4]

theorem paidCap_le_amount (m : Milestone) : paidCap m ≤ m.amount := by
  unfold paidCap; split <;> omega

theorem paidCap_eq_zero {m : Milestone}
    (h : m.status = MilestoneStatus.NotStarted ∨ m.status = MilestoneStatus.Submitted ∨
      m.status = MilestoneStatus.Rejected ∨ m.status = MilestoneStatus.Disputed) :
    paidCap m = 0 := by
  unfold paidCap; rcases h with h | h | h | h <;> rw [h]

theorem paidCap_eq_amount {m : Milestone}
    (h : m.status = MilestoneStatus.Approved ∨ m.status = MilestoneStatus.Resolved) :
    paidCap m = m.amount := by
  unfold paidCap; rcases h with h | h <;> rw [h]

theorem unpaidCap_eq_amount {m : Milestone}
    (h : m.status = MilestoneStatus.NotStarted ∨ m.status = MilestoneStatus.Submitted ∨
      m.status = MilestoneStatus.Rejected ∨ m.status = MilestoneStatus.Disputed) :
    unpaidCap m = m.amount := by
  unfold unpaidCap; rcases h with h | h | h | h <;> rw [h]

theorem unpaidCap_eq_zero {m : Milestone}
    (h : m.status = MilestoneStatus.Approved ∨ m.status = MilestoneStatus.Resolved) :
    unpaidCap m = 0 := by
  unfold unpaidCap; rcases h with h | h <;> rw [h]

/-- A milestone index whose mapping read is not in the zero status is in bounds. -/
theorem lt_length_of_getD_status {ms : List Milestone} {i : Nat}
    (h : (ms.getD i zeroMilestone).status ≠ MilestoneStatus.NotStarted) :
    i < ms.length := by
  by_contra hc
  push_neg at hc
  rw [List.getD_eq_default _ _ hc] at h
  exact h rfl

theorem inv_startWorkResult {s : EscrowState} (hInv : Inv s) :
    Inv (startWorkResult s) := by
  obtain ⟨hs, hp, he, _⟩ := hInv
  refine ⟨hs, hp, he, ?_⟩
  intro hcon
  simp [startWorkResult] at hcon

theorem inv_submitResult {s : EscrowState} {n i : Nat} {d : String}
    (hInv : Inv s) (h2 : s.status = EscrowStatus.InProgress)
    (h4 : (s.milestones.getD i zeroMilestone).status = MilestoneStatus.NotStarted ∨
      (s.milestones.getD i zeroMilestone).status = MilestoneStatus.Rejected) :
    Inv (submitResult s n i d) := by
  obtain ⟨hs, hp, he, _⟩ := hInv
  have h4' : (s.milestones.getD i zeroMilestone).status = MilestoneStatus.NotStarted ∨
      (s.milestones.getD i zeroMilestone).status = MilestoneStatus.Submitted ∨
      (s.milestones.getD i zeroMilestone).status = MilestoneStatus.Rejected ∨
      (s.milestones.getD i zeroMilestone).status = MilestoneStatus.Disputed := by tauto
  have hAm : ∀ f : Milestone → Nat,
      f { s.milestones.getD i zeroMilestone with
            status := MilestoneStatus.Submitted
            submittedAt := n
            description :=
              if 0 < d.length then d
              else (s.milestones.getD i zeroMilestone).description } =
        f (s.milestones.getD i zeroMilestone) →
      (submitResult s n i d).milestones.map f = s.milestones.map f := by
    intro f hf
    exact map_set_congr f s.milestones i _ hf
  refine ⟨?_, ?_, ?_, ?_⟩
  · show sumBy Milestone.amount (submitResult s n i d).milestones = s.totalAmount
    unfold sumBy
    rw [hAm Milestone.amount rfl]
    exact hs
  · show s.paidAmount ≤ sumBy paidCap (submitResult s n i d).milestones
    unfold sumBy
    rw [hAm paidCap ?_]
    · exact hp
    · rw [paidCap_eq_zero (by tauto), paidCap_eq_zero h4']
  · show s.escrowedAmount = sumBy unpaidCap (submitResult s n i d).milestones
    unfold sumBy
    rw [hAm unpaidCap ?_]
    · exact he
    · rw [unpaidCap_eq_amount (by tauto), unpaidCap_eq_amount h4']
  · intro hcon
    have : s.status = EscrowStatus.Released := hcon
    rw [h2] at this
    cases this

theorem inv_rejectResult {s : EscrowState} {c n i : Nat} {r : String}
    (hInv : Inv s) (h2 : s.status = EscrowStatus.InProgress)
    (h4 : (s.milestones.getD i zeroMilestone).status = MilestoneStatus.Submitted) :
    Inv (rejectResult s c n i r) := by
  obtain ⟨hs, hp, he, _⟩ := hInv
  have hAm : ∀ f : Milestone → Nat,
      f { s.milestones.getD i zeroMilestone with
            status := MilestoneStatus.Rejected
            disputedAt := n
            disputedBy := c
            disputeReason := r } =
        f (s.milestones.getD i zeroMilestone) →
      (rejectResult s c n i r).milestones.map f = s.milestones.map f := by
    intro f hf
    exact map_set_congr f s.milestones i _ hf
  refine ⟨?_, ?_, ?_, ?_⟩
  · show sumBy Milestone.amount (rejectResult s c n i r).milestones = s.totalAmount
    unfold sumBy
    rw [hAm Milestone.amount rfl]
    exact hs
  · show s.paidAmount ≤ sumBy paidCap (rejectResult s c n i r).milestones
    unfold sumBy
    rw [hAm paidCap ?_]
    · exact hp
    · rw [paidCap_eq_zero (by tauto), paidCap_eq_zero (by tauto)]
  · show s.escrowedAmount = sumBy unpaidCap (rejectResult s c n i r).milestones
    unfold sumBy
    rw [hAm unpaidCap ?_]
    · exact he
    · rw [unpaidCap_eq_amount (by tauto), unpaidCap_eq_amount (by tauto)]
  · intro hcon
    have : s.status = EscrowStatus.Released := hcon
    rw [h2] at this
    cases this

theorem inv_disputeResult {s : EscrowState} {c n i : Nat} {r : String}
    (hInv : Inv s)
    (h4 : (s.milestones.getD i zeroMilestone).status = MilestoneStatus.Submitted) :
    Inv (disputeResult s c n i r) := by
  obtain ⟨hs, hp, he, _⟩ := hInv
  have hAm : ∀ f : Milestone → Nat,
      f { s.milestones.getD i zeroMilestone with
            status := MilestoneStatus.Disputed
            disputedAt := n
            disputedBy := c
            disputeReason := r } =
        f (s.milestones.getD i zeroMilestone) →
      (disputeResult s c n i r).milestones.map f = s.milestones.map f := by
    intro f hf
    exact map_set_congr f s.milestones i _ hf
  refine ⟨?_, ?_, ?_, ?_⟩
  · show sumBy Milestone.amount (disputeResult s c n i r).milestones = s.totalAmount
    unfold sumBy
    rw [hAm Milestone.amount rfl]
    exact hs
  · show s.paidAmount ≤ sumBy paidCap (disputeResult s c n i r).milestones
    unfold sumBy
    rw [hAm paidCap ?_]
    · exact hp
    · rw [paidCap_eq_zero (by tauto), paidCap_eq_zero (by tauto)]
  · show s.escrowedAmount = sumBy unpaidCap (disputeResult s c n i r).milestones
    unfold sumBy
    rw [hAm unpaidCap ?_]
    · exact he
    · rw [unpaidCap_eq_amount (by tauto), unpaidCap_eq_amount (by tauto)]
  · intro hcon
    cases hcon

theorem inv_approveResult {s : EscrowState} {n i : Nat}
    (hInv : Inv s) (h3 : i < s.milestones.length)
    (h4 : (s.milestones.getD i zeroMilestone).status = MilestoneStatus.Submitted) :
    Inv (approveResult s n i) := by
  obtain ⟨hs, hp, he, _⟩ := hInv
  have hamount :
      (approveResult s n i).milestones.map Milestone.amount =
        s.milestones.map Milestone.amount :=
    map_set_congr Milestone.amount s.milestones i _ rfl
  have hpaid := sumBy_set paidCap s.milestones i
    { s.milestones.getD i zeroMilestone with
      status := MilestoneStatus.Approved
      approvedAt := n } h3
  have hunpaid := sumBy_set unpaidCap s.milestones i
    { s.milestones.getD i zeroMilestone with
      status := MilestoneStatus.Approved
      approvedAt := n } h3
  rw [paidCap_eq_zero (by tauto)] at hpaid
  rw [unpaidCap_eq_amount (by tauto)] at hunpaid
  have hpc :
      paidCap
        { s.milestones.getD i zeroMilestone with
          status := MilestoneStatus.Approved
          approvedAt := n } = (s.milestones.getD i zeroMilestone).amount := rfl
  have hup :
      unpaidCap
        { s.milestones.getD i zeroMilestone with
          status := MilestoneStatus.Approved
          approvedAt := n } = 0 := rfl
  rw [hpc] at hpaid
  rw [hup] at hunpaid
  refine ⟨?_, ?_, ?_, ?_⟩
  · show sumBy Milestone.amount (approveResult s n i).milestones = s.totalAmount
    unfold sumBy
    rw [hamount]
    exact hs
  · have hms : (approveResult s n i).milestones =
        s.milestones.set i
          { s.milestones.getD i zeroMilestone with
            status := MilestoneStatus.Approved
            approvedAt := n } := rfl
    show s.paidAmount + (s.milestones.getD i zeroMilestone).amount ≤
      sumBy paidCap (approveResult s n i).milestones
    rw [hms]
    omega
  · have hms : (approveResult s n i).milestones =
        s.milestones.set i
          { s.milestones.getD i zeroMilestone with
            status := MilestoneStatus.Approved
            approvedAt := n } := rfl
    show s.escrowedAmount - (s.milestones.getD i zeroMilestone).amount =
      sumBy unpaidCap (approveResult s n i).milestones
    rw [hms]
    omega
  · intro hcon
    show (approveResult s n i).paidAmount = (approveResult s n i).totalAmount
    have hcon' :
        (if s.paidAmount + (s.milestones.getD i zeroMilestone).amount = s.totalAmount then
          EscrowStatus.Released
        else EscrowStatus.InProgress) = EscrowStatus.Released := hcon
    by_cases hc : s.paidAmount + (s.milestones.getD i zeroMilestone).amount = s.totalAmount
    · exact hc
    · rw [if_neg hc] at hcon'
      cases hcon'

theorem inv_resolveResult {s : EscrowState} {n i b : Nat} {r : String}
    (hInv : Inv s)
    (h3 : (s.milestones.getD i zeroMilestone).status = MilestoneStatus.Disputed)
    (h4 : b ≤ (s.milestones.getD i zeroMilestone).amount) :
    Inv (resolveResult s n i b r) := by
  obtain ⟨hs, hp, he, _⟩ := hInv
  have hlen : i < s.milestones.length :=
    lt_length_of_getD_status (by rw [h3]; intro hx; cases hx)
  have hamount :
      (resolveResult s n i b r).milestones.map Milestone.amount =
        s.milestones.map Milestone.amount :=
    map_set_congr Milestone.amount s.milestones i _ rfl
  have hpaid := sumBy_set paidCap s.milestones i
    { s.milestones.getD i zeroMilestone with
      status := MilestoneStatus.Resolved
      approvedAt := n
      disputeReason := r
      disputedBy :=
        if (s.milestones.getD i zeroMilestone).amount - b < b then s.beneficiary
        else s.depositor } hlen
  have hunpaid := sumBy_set unpaidCap s.milestones i
    { s.milestones.getD i zeroMilestone with
      status := MilestoneStatus.Resolved
      approvedAt := n
      disputeReason := r
      disputedBy :=
        if (s.milestones.getD i zeroMilestone).amount - b < b then s.beneficiary
        else s.depositor } hlen
  rw [paidCap_eq_zero (by tauto)] at hpaid
  rw [unpaidCap_eq_amount (by tauto)] at hunpaid
  have hpc :
      paidCap
        { s.milestones.getD i zeroMilestone with
          status := MilestoneStatus.Resolved
          approvedAt := n
          disputeReason := r
          disputedBy :=
            if (s.milestones.getD i zeroMilestone).amount - b < b then s.beneficiary
            else s.depositor } = (s.milestones.getD i zeroMilestone).amount := rfl
  have hup :
      unpaidCap
        { s.milestones.getD i zeroMilestone with
          status := MilestoneStatus.Resolved
          approvedAt := n
          disputeReason := r
          disputedBy :=
            if (s.milestones.getD i zeroMilestone).amount - b < b then s.beneficiary
            else s.depositor } = 0 := rfl
  rw [hpc] at hpaid
  rw [hup] at hunpaid
  refine ⟨?_, ?_, ?_, ?_⟩
  · show sumBy Milestone.amount (resolveResult s n i b r).milestones = s.totalAmount
    unfold sumBy
    rw [hamount]
    exact hs
  · have hms : (resolveResult s n i b r).milestones =
        s.milestones.set i
          { s.milestones.getD i zeroMilestone with
            status := MilestoneStatus.Resolved
            approvedAt := n
            disputeReason := r
            disputedBy :=
              if (s.milestones.getD i zeroMilestone).amount - b < b then s.beneficiary
              else s.depositor } := rfl
    show s.paidAmount + b ≤ sumBy paidCap (resolveResult s n i b r).milestones
    rw [hms]
    omega
  · have hms : (resolveResult s n i b r).milestones =
        s.milestones.set i
          { s.milestones.getD i zeroMilestone with
            status := MilestoneStatus.Resolved
            approvedAt := n
            disputeReason := r
            disputedBy :=
              if (s.milestones.getD i zeroMilestone).amount - b < b then s.beneficiary
              else s.depositor } := rfl
    show s.escrowedAmount - (s.milestones.getD i zeroMilestone).amount =
      sumBy unpaidCap (resolveResult s n i b r).milestones
    rw [hms]
    omega
  · intro hcon
    show (resolveResult s n i b r).paidAmount = (resolveResult s n i b r).totalAmount
    have hcon' :
        (if s.paidAmount + b = s.totalAmount then EscrowStatus.Released
        else EscrowStatus.InProgress) = EscrowStatus.Released := hcon
    by_cases hc : s.paidAmount + b = s.totalAmount
    · exact hc
    · rw [if_neg hc] at hcon'
      cases hcon'

/-- Every successful operation preserves the conservation invariant. -/
theorem inv_execOp {s : EscrowState} {o : Op} {t : EscrowState}
    (hInv : Inv s) (h : execOp s o = Except.ok t) : Inv t := by
  cases o with
  | startWork c n =>
      obtain ⟨_, _, _, ht⟩ := startWork_ok h
      subst ht
      exact inv_startWorkResult hInv
  | submitMilestone c n i d =>
      obtain ⟨_, h2, _, h4, ht⟩ := submitMilestone_ok h
      subst ht
      exact inv_submitResult hInv h2 (Or.inl h4)
  | approveMilestone c n i =>
      obtain ⟨_, _, h3, h4, _, ht⟩ := approveMilestone_ok h
      subst ht
      exact inv_approveResult hInv h3 h4
  | rejectMilestone c n i r =>
      obtain ⟨_, h2, _, h4, ht⟩ := rejectMilestone_ok h
      subst ht
      exact inv_rejectResult hInv h2 h4
  | resubmitMilestone c n i d =>
      obtain ⟨_, h2, _, h4, ht⟩ := resubmitMilestone_ok h
      subst ht
      exact inv_submitResult hInv h2 (Or.inr h4)
  | disputeMilestone c n i r =>
      obtain ⟨_, h2, _, ht⟩ := disputeMilestone_ok h
      subst ht
      exact inv_disputeResult hInv h2
  | resolveDispute c n i b r =>
      obtain ⟨_, _, h3, h4, _, ht⟩ := resolveDispute_ok h
      subst ht
      exact inv_resolveResult hInv h3 h4

/-- The conservation invariant holds at creation. -/
theorem inv_of_fresh {s : EscrowState} (h : FreshEscrow s) : Inv s := by
  obtain ⟨hst, _, hp, htot, hesc, hns, _, _⟩ := h
  refine ⟨htot.symm, ?_, ?_, ?_⟩
  · rw [hp]; omega
  · rw [hesc, htot]
    unfold sumBy
    have : s.milestones.map unpaidCap = s.milestones.map Milestone.amount := by
      apply List.map_congr_left
      intro m hm
      exact unpaidCap_eq_amount (Or.inl (hns m hm))
    rw [this]
  · intro hcon
    rw [hst] at hcon
    cases hcon

/-- The conservation invariant holds in every reachable state. -/
theorem reachable_inv {s : EscrowState} (h : Reachable s) : Inv s := by
  induction h with
  | init hf => exact inv_of_fresh hf
  | step _ hok ih => exact inv_execOp ih hok

/-- Each state reached by running any call sequence from a reachable state is
itself reachable. -/
theorem reachable_runOps {s : EscrowState} (h : Reachable s) (ops : List Op) :
    Reachable (runOps s ops) := by
  induction ops generalizing s with
  | nil => exact h
  | cons o ops ih =>
      show Reachable (runOps (stepTx s o) ops)
      apply ih
      unfold stepTx
      cases hcase : execOp s o with
      | ok t => exact Reachable.step h hcase
      | error e => exact h

theorem getD_set_self : ∀ {ms : List Milestone} {i : Nat}, i < ms.length →
    ∀ m' : Milestone, (ms.set i m').getD i zeroMilestone = m'
  | _ :: _, 0, _, _ => rfl
  | _ :: ms, i + 1, h, m' => @getD_set_self ms i (by simpa using h) m'

theorem getD_set_ne : ∀ (ms : List Milestone) (i k : Nat), i ≠ k →
    ∀ m' : Milestone, (ms.set i m').getD k zeroMilestone = ms.getD k zeroMilestone
  | [], _, _, _, _ => by simp
  | _ :: _, 0, 0, h, _ => absurd rfl h
  | _ :: _, 0, _ + 1, _, _ => rfl
  | _ :: _, _ + 1, 0, _, _ => rfl
  | _ :: ms, i + 1, k + 1, h, m' =>
      getD_set_ne ms i k (fun hx => h (by rw [hx])) m'

/-- Whether a call succeeded (did not revert). -/
def resultOk : Except Err EscrowState → Bool
  | Except.ok _ => true
  | Except.error _ => false

/-- All milestone amounts are positive.  The contract-side `createEscrow` is not
among the sources; the repository's only creation path (the frontend form)
rejects any milestone amount below 0.01 tokens, so created escrows satisfy
this, and no operation ever changes an amount. -/
def PosAmounts (s : EscrowState) : Prop :=
  ∀ m ∈ s.milestones, 0 < m.amount

instance (s : EscrowState) : Decidable (PosAmounts s) := by
  unfold PosAmounts; infer_instance

/-- In a fully paid (Released) escrow with positive milestone amounts, every
milestone has been paid out: approved or resolved. -/
theorem released_no_submitted {s : EscrowState}
    (hInv : Inv s) (hpos : PosAmounts s) (hrel : s.status = EscrowStatus.Released) :
    ∀ m ∈ s.milestones,
      m.status = MilestoneStatus.Approved ∨ m.status = MilestoneStatus.Resolved := by
  obtain ⟨hs, hp, _, hr⟩ := hInv
  have hpaid := hr hrel
  have hle : ∀ m ∈ s.milestones, paidCap m ≤ m.amount := fun m _ => paidCap_le_amount m
  have hsum : sumBy Milestone.amount s.milestones ≤ sumBy paidCap s.milestones := by omega
  have heq := sumBy_pointwise_eq paidCap Milestone.amount hle hsum
  intro m hm
  have hcap := heq m hm
  have hposm := hpos m hm
  cases hstat : m.status
  case Approved => exact Or.inl rfl
  case Resolved => exact Or.inr rfl
  all_goals
    rw [paidCap_eq_zero (by tauto)] at hcap
  all_goals omega

/-- From a Released escrow with positive amounts, every call reverts. -/
theorem released_execOp_fails {s : EscrowState}
    (hInv : Inv s) (hpos : PosAmounts s) (hrel : s.status = EscrowStatus.Released)
    (o : Op) : ∃ e, execOp s o = Except.error e := by
  have hAR := released_no_submitted hInv hpos hrel
  have hns : ∀ i : Nat,
      (s.milestones.getD i zeroMilestone).status ≠ MilestoneStatus.Submitted := by
    intro i
    by_cases hi : i < s.milestones.length
    · rcases hAR _ (getD_mem hi) with h | h <;> rw [h] <;> intro hx <;> cases hx
    · rw [List.getD_eq_default _ _ (by omega)]
      intro hx; cases hx
  cases o with
  | startWork c n =>
      show ∃ e, startWork s c = Except.error e
      unfold startWork
      by_cases h1 : c = s.beneficiary
      · rw [if_pos h1, hrel, if_neg (by intro hx; cases hx)]
        exact ⟨_, rfl⟩
      · rw [if_neg h1]; exact ⟨_, rfl⟩
  | submitMilestone c n i d =>
      show ∃ e, submitMilestone s c n i d = Except.error e
      unfold submitMilestone
      by_cases h1 : c = s.beneficiary
      · rw [if_pos h1, hrel, if_neg (by intro hx; cases hx)]
        exact ⟨_, rfl⟩
      · rw [if_neg h1]; exact ⟨_, rfl⟩
  | approveMilestone c n i =>
      show ∃ e, approveMilestone s c n i = Except.error e
      unfold approveMilestone
      by_cases h1 : c = s.depositor
      · rw [if_pos h1, hrel, if_neg (by intro hx; cases hx)]
        exact ⟨_, rfl⟩
      · rw [if_neg h1]; exact ⟨_, rfl⟩
  | rejectMilestone c n i r =>
      show ∃ e, rejectMilestone s c n i r = Except.error e
      unfold rejectMilestone
      by_cases h1 : c = s.depositor
      · rw [if_pos h1, hrel, if_neg (by intro hx; cases hx)]
        exact ⟨_, rfl⟩
      · rw [if_neg h1]; exact ⟨_, rfl⟩
  | resubmitMilestone c n i d =>
      show ∃ e, resubmitMilestone s c n i d = Except.error e
      unfold resubmitMilestone
      by_cases h1 : c = s.beneficiary
      · rw [if_pos h1, hrel, if_neg (by intro hx; cases hx)]
        exact ⟨_, rfl⟩
      · rw [if_neg h1]; exact ⟨_, rfl⟩
  | disputeMilestone c n i r =>
      show ∃ e, disputeMilestone s c n i r = Except.error e
      unfold disputeMilestone
      by_cases h1 : c = s.depositor
      · rw [if_pos h1, if_neg (hns i)]
        exact ⟨_, rfl⟩
      · rw [if_neg h1]; exact ⟨_, rfl⟩
  | resolveDispute c n i b r =>
      show ∃ e, resolveDispute s c n i b r = Except.error e
      unfold resolveDispute
      by_cases h1 : c = s.depositor ∨ c = s.beneficiary ∨ c ∈ s.arbiters
      · rw [if_pos h1, hrel, if_neg (by intro hx; cases hx)]
        exact ⟨_, rfl⟩
      · rw [if_neg h1]; exact ⟨_, rfl⟩

theorem released_stepTx {s : EscrowState}
    (hInv : Inv s) (hpos : PosAmounts s) (hrel : s.status = EscrowStatus.Released)
    (o : Op) : stepTx s o = s := by
  obtain ⟨e, he⟩ := released_execOp_fails hInv hpos hrel o
  unfold stepTx
  rw [he]

theorem released_runOps {s : EscrowState}
    (hInv : Inv s) (hpos : PosAmounts s) (hrel : s.status = EscrowStatus.Released)
    (ops : List Op) : runOps s ops = s := by
  induction ops with
  | nil => rfl
  | cons o ops ih =>
      show runOps (stepTx s o) ops = s
      rw [released_stepTx hInv hpos hrel o]
      exact ih

/-- A concrete freshly created escrow used by the witnesses: depositor 1,
beneficiary 2, one arbiter 3, two milestones of 100 and 200. -/
def exFresh : EscrowState :=
  { depositor := 1
    beneficiary := 2
    arbiters := [3]
    totalAmount := 300
    paidAmount := 0
    platformFee := 7
    workStarted := false
    status := EscrowStatus.Pending
    milestones :=
      [ { zeroMilestone with description := "design", amount := 100 },
        { zeroMilestone with description := "build", amount := 200 } ]
    escrowedAmount := 300
    totalFees := 0
    transfers := [] }

/-- Start work, submit and approve both milestones: ends Released. -/
def exReleasedOps : List Op :=
  [ Op.startWork 2 10,
    Op.submitMilestone 2 11 0 "",
    Op.approveMilestone 1 12 0,
    Op.submitMilestone 2 13 1 "",
    Op.approveMilestone 1 14 1 ]

/-- C1: from a freshly created escrow whose milestone amounts sum to
`total_amount`, after every sequence of operations `paid_amount ≤ total_amount`
holds and the milestone amounts still sum to `total_amount`. -/
theorem claim_C1_conservation {s : EscrowState} (h : Reachable s) :
    s.paidAmount ≤ s.totalAmount ∧
    sumBy Milestone.amount s.milestones = s.totalAmount := by
  obtain ⟨hs, hp, _, _⟩ := reachable_inv h
  have hmono := @sumBy_mono paidCap Milestone.amount s.milestones
    (fun m _ => paidCap_le_amount m)
  exact ⟨by omega, hs⟩

theorem claim_C1_conservation_witness :
    (runOps exFresh exReleasedOps).paidAmount ≤ (runOps exFresh exReleasedOps).totalAmount ∧
    sumBy Milestone.amount (runOps exFresh exReleasedOps).milestones =
      (runOps exFresh exReleasedOps).totalAmount :=
  claim_C1_conservation (reachable_runOps (Reachable.init (by decide)) exReleasedOps)

/-- C4: once a reachable escrow with positive milestone amounts is Released,
every further call sequence leaves the state exactly as it is, and in
particular every approve, reject or dispute call reverts. -/
theorem claim_C4_released_frozen {s : EscrowState} (h : Reachable s)
    (hpos : PosAmounts s) (hrel : s.status = EscrowStatus.Released) :
    (∀ ops : List Op, runOps s ops = s) ∧
    (∀ c n i : Nat, ∃ e, approveMilestone s c n i = Except.error e) ∧
    (∀ (c n i : Nat) (r : String), ∃ e, rejectMilestone s c n i r = Except.error e) ∧
    (∀ (c n i : Nat) (r : String), ∃ e, disputeMilestone s c n i r = Except.error e) := by
  have hInv := reachable_inv h
  refine ⟨released_runOps hInv hpos hrel, ?_, ?_, ?_⟩
  · intro c n i
    exact released_execOp_fails hInv hpos hrel (Op.approveMilestone c n i)
  · intro c n i r
    exact released_execOp_fails hInv hpos hrel (Op.rejectMilestone c n i r)
  · intro c n i r
    exact released_execOp_fails hInv hpos hrel (Op.disputeMilestone c n i r)

theorem claim_C4_released_frozen_witness :
    runOps (runOps exFresh exReleasedOps) [Op.submitMilestone 2 20 0 "again"] =
      runOps exFresh exReleasedOps ∧
    (∃ e, approveMilestone (runOps exFresh exReleasedOps) 1 21 0 = Except.error e) ∧
    (∃ e, rejectMilestone (runOps exFresh exReleasedOps) 1 21 0 "no" = Except.error e) ∧
    (∃ e, disputeMilestone (runOps exFresh exReleasedOps) 1 21 0 "no" = Except.error e) := by
  have H := @claim_C4_released_frozen (runOps exFresh exReleasedOps)
    (reachable_runOps (Reachable.init (by decide)) exReleasedOps)
    (by decide) (by decide)
  exact ⟨H.1 _, H.2.1 1 21 0, H.2.2.1 1 21 0 "no", H.2.2.2 1 21 0 "no"⟩

/-- Start work and submit both milestones, then dispute the first: the escrow
is now Disputed while the second milestone is still Submitted. -/
def exOneDisputed : EscrowState :=
  runOps exFresh
    [ Op.startWork 2 10,
      Op.submitMilestone 2 11 0 "",
      Op.submitMilestone 2 12 1 "",
      Op.disputeMilestone 1 13 0 "incomplete" ]

/-- C2 counterexample: from a freshly created escrow, after submitting two
milestones and disputing the first, the escrow status is `Disputed` — not
`InProgress` — yet disputing the second milestone still succeeds, refuting the
claimed escrow-status precondition of `dispute`. -/
theorem claim_C2_counterexample :
    FreshEscrow exFresh ∧
    exOneDisputed.status = EscrowStatus.Disputed ∧
    resultOk (disputeMilestone exOneDisputed 1 14 1 "second") = true := by
  decide

/-- C2 amended: `disputeMilestone` succeeds exactly when the caller is the
depositor, the milestone is `Submitted`, and the call is at most
`submitted_at + DISPUTE_PERIOD`; the escrow status is not checked.  On success
the milestone becomes `Disputed` and the escrow status becomes `Disputed`. -/
theorem claim_C2_amended_dispute {s : EscrowState} {c n i : Nat} {r : String} :
    (resultOk (disputeMilestone s c n i r) = true ↔
      (c = s.depositor ∧
       (s.milestones.getD i zeroMilestone).status = MilestoneStatus.Submitted ∧
       n ≤ (s.milestones.getD i zeroMilestone).submittedAt + DISPUTE_PERIOD)) ∧
    (∀ t, disputeMilestone s c n i r = Except.ok t →
      (t.milestones.getD i zeroMilestone).status = MilestoneStatus.Disputed ∧
      t.status = EscrowStatus.Disputed) := by
  constructor
  · constructor
    · intro hok
      cases hcase : disputeMilestone s c n i r with
      | ok t =>
          obtain ⟨ha, hb, hc, _⟩ := disputeMilestone_ok hcase
          exact ⟨ha, hb, hc⟩
      | error e =>
          rw [hcase] at hok
          cases hok
    · rintro ⟨h1, h2, h3⟩
      rw [disputeMilestone_eq_ok h1 h2 h3]
      rfl
  · intro t ht
    obtain ⟨_, h2, _, htr⟩ := disputeMilestone_ok ht
    subst htr
    have hlen : i < s.milestones.length :=
      lt_length_of_getD_status (by rw [h2]; intro hx; cases hx)
    have hms : (disputeResult s c n i r).milestones =
        s.milestones.set i
          { s.milestones.getD i zeroMilestone with
            status := MilestoneStatus.Disputed
            disputedAt := n
            disputedBy := c
            disputeReason := r } := rfl
    refine ⟨?_, rfl⟩
    show ((disputeResult s c n i r).milestones.getD i zeroMilestone).status =
      MilestoneStatus.Disputed
    rw [hms, getD_set_self hlen]

theorem claim_C2_amended_dispute_witness :
    resultOk (disputeMilestone exOneDisputed 1 14 1 "w") = true :=
  (@claim_C2_amended_dispute exOneDisputed 1 14 1 "w").1.mpr
    ⟨by decide, by decide, by decide⟩

/-- Disputing the second milestone while the escrow is already Disputed: both
milestones end up Disputed at once. -/
def exTwoDisputed : EscrowState :=
  stepTx exOneDisputed (Op.disputeMilestone 1 14 1 "second")

/-- C3 counterexample: a call sequence from a freshly created escrow ends with
two milestones simultaneously Disputed, refuting the at-most-one invariant:
`disputeMilestone` never checks the escrow status, so a second Submitted
milestone can be disputed while the escrow is already Disputed. -/
theorem claim_C3_counterexample :
    FreshEscrow exFresh ∧
    (exTwoDisputed.milestones.getD 0 zeroMilestone).status = MilestoneStatus.Disputed ∧
    (exTwoDisputed.milestones.getD 1 zeroMilestone).status = MilestoneStatus.Disputed := by
  decide

/-- At most one milestone of the escrow is in status Disputed (an unset index
reads as the zero milestone, which is NotStarted). -/
def AtMostOneDisputed (s : EscrowState) : Prop :=
  ∀ k l : Nat,
    (s.milestones.getD k zeroMilestone).status = MilestoneStatus.Disputed →
    (s.milestones.getD l zeroMilestone).status = MilestoneStatus.Disputed →
    k = l

/-- No milestone of the escrow is in status Disputed. -/
def NoDisputed (s : EscrowState) : Prop :=
  ∀ k : Nat, (s.milestones.getD k zeroMilestone).status ≠ MilestoneStatus.Disputed

theorem atMostOne_of_noDisputed {s : EscrowState} (h : NoDisputed s) :
    AtMostOneDisputed s := by
  intro k l hk _
  exact absurd hk (h k)

theorem set_oob : ∀ {ms : List Milestone} {i : Nat}, ms.length ≤ i →
    ∀ m' : Milestone, ms.set i m' = ms
  | [], _, _, _ => rfl
  | _ :: _, 0, h, _ => by simp at h
  | m :: ms, i + 1, h, m' => by
      show m :: ms.set i m' = m :: ms
      rw [set_oob (by simpa using h) m']

theorem noDisputed_set {s : EscrowState} {i : Nat} {m' : Milestone}
    (h : NoDisputed s) (hm' : m'.status ≠ MilestoneStatus.Disputed) :
    ∀ k : Nat,
      ((s.milestones.set i m').getD k zeroMilestone).status ≠ MilestoneStatus.Disputed := by
  intro k
  by_cases hk : i = k
  · subst hk
    by_cases hi : i < s.milestones.length
    · rw [getD_set_self hi]
      exact hm'
    · rw [set_oob (by omega) m']
      exact h i
  · rw [getD_set_ne _ _ _ hk]
    exact h k

/-- Reachability restricted to traces where `dispute` is only invoked while the
escrow is `InProgress` (the precondition the spec's state table assumes but the
source does not check). -/
inductive ReachableGuarded : EscrowState → Prop where
  | init {s} : FreshEscrow s → ReachableGuarded s
  | step {s o t} : ReachableGuarded s → execOp s o = Except.ok t →
      (∀ c n i r, o = Op.disputeMilestone c n i r → s.status = EscrowStatus.InProgress) →
      ReachableGuarded t

/-- The invariant of guarded traces: at most one Disputed milestone, and none
at all while the escrow is not itself Disputed. -/
def DInv (s : EscrowState) : Prop :=
  AtMostOneDisputed s ∧ (s.status ≠ EscrowStatus.Disputed → NoDisputed s)

theorem dinv_of_fresh {s : EscrowState} (h : FreshEscrow s) : DInv s := by
  obtain ⟨_, _, _, _, _, hns, _, _⟩ := h
  have hnd : NoDisputed s := by
    intro k
    by_cases hk : k < s.milestones.length
    · rw [hns _ (getD_mem hk)]
      intro hx; cases hx
    · rw [List.getD_eq_default _ _ (by omega)]
      intro hx; cases hx
  exact ⟨atMostOne_of_noDisputed hnd, fun _ => hnd⟩

theorem dinv_execOp {s : EscrowState} {o : Op} {t : EscrowState}
    (hD : DInv s) (h : execOp s o = Except.ok t)
    (hg : ∀ c n i r, o = Op.disputeMilestone c n i r → s.status = EscrowStatus.InProgress) :
    DInv t := by
  obtain ⟨hone, hnod⟩ := hD
  cases o with
  | startWork c n =>
      obtain ⟨_, h2, _, ht⟩ := startWork_ok h
      subst ht
      have hnd : NoDisputed s := hnod (by rw [h2]; intro hx; cases hx)
      exact ⟨atMostOne_of_noDisputed hnd, fun _ => hnd⟩
  | submitMilestone c n i d =>
      obtain ⟨_, h2, _, _, ht⟩ := submitMilestone_ok h
      subst ht
      have hnd : NoDisputed s := hnod (by rw [h2]; intro hx; cases hx)
      have hnd' : NoDisputed (submitResult s n i d) := by
        intro k
        exact noDisputed_set hnd (by intro hx; cases hx) k
      exact ⟨atMostOne_of_noDisputed hnd', fun _ => hnd'⟩
  | approveMilestone c n i =>
      obtain ⟨_, h2, _, _, _, ht⟩ := approveMilestone_ok h
      subst ht
      have hnd : NoDisputed s := hnod (by rw [h2]; intro hx; cases hx)
      have hnd' : NoDisputed (approveResult s n i) := by
        intro k
        exact noDisputed_set hnd (by intro hx; cases hx) k
      exact ⟨atMostOne_of_noDisputed hnd', fun _ => hnd'⟩
  | rejectMilestone c n i r =>
      obtain ⟨_, h2, _, _, ht⟩ := rejectMilestone_ok h
      subst ht
      have hnd : NoDisputed s := hnod (by rw [h2]; intro hx; cases hx)
      have hnd' : NoDisputed (rejectResult s c n i r) := by
        intro k
        exact noDisputed_set hnd (by intro hx; cases hx) k
      exact ⟨atMostOne_of_noDisputed hnd', fun _ => hnd'⟩
  | resubmitMilestone c n i d =>
      obtain ⟨_, h2, _, _, ht⟩ := resubmitMilestone_ok h
      subst ht
      have hnd : NoDisputed s := hnod (by rw [h2]; intro hx; cases hx)
      have hnd' : NoDisputed (submitResult s n i d) := by
        intro k
        exact noDisputed_set hnd (by intro hx; cases hx) k
      exact ⟨atMostOne_of_noDisputed hnd', fun _ => hnd'⟩
  | disputeMilestone c n i r =>
      obtain ⟨_, h2, _, ht⟩ := disputeMilestone_ok h
      subst ht
      have hs := hg c n i r rfl
      have hnd : NoDisputed s := hnod (by rw [hs]; intro hx; cases hx)
      have hms : (disputeResult s c n i r).milestones =
          s.milestones.set i
            { s.milestones.getD i zeroMilestone with
              status := MilestoneStatus.Disputed
              disputedAt := n
              disputedBy := c
              disputeReason := r } := rfl
      constructor
      · intro k l hk hl
        rw [hms] at hk hl
        by_cases hki : i = k
        · by_cases hli : i = l
          · omega
          · rw [getD_set_ne _ _ _ hli] at hl
            exact absurd hl (hnd l)
        · rw [getD_set_ne _ _ _ hki] at hk
          exact absurd hk (hnd k)
      · intro hcon
        exact absurd rfl hcon
  | resolveDispute c n i b r =>
      obtain ⟨_, h2, h3, _, _, ht⟩ := resolveDispute_ok h
      subst ht
      have hlen : i < s.milestones.length :=
        lt_length_of_getD_status (by rw [h3]; intro hx; cases hx)
      have hms : (resolveResult s n i b r).milestones =
          s.milestones.set i
            { s.milestones.getD i zeroMilestone with
              status := MilestoneStatus.Resolved
              approvedAt := n
              disputeReason := r
              disputedBy :=
                if (s.milestones.getD i zeroMilestone).amount - b < b then s.beneficiary
                else s.depositor } := rfl
      have hnd' : NoDisputed (resolveResult s n i b r) := by
        intro k
        show ((resolveResult s n i b r).milestones.getD k zeroMilestone).status ≠
          MilestoneStatus.Disputed
        rw [hms]
        by_cases hk : i = k
        · subst hk
          rw [getD_set_self hlen]
          intro hx; cases hx
        · rw [getD_set_ne _ _ _ hk]
          intro hdisp
          exact hk ((hone k i hdisp h3).symm)
      exact ⟨atMostOne_of_noDisputed hnd', fun _ => hnd'⟩

theorem dinv_reachableGuarded {s : EscrowState} (h : ReachableGuarded s) : DInv s := by
  induction h with
  | init hf => exact dinv_of_fresh hf
  | step _ hok hg ih => exact dinv_execOp ih hok hg

theorem reachableGuarded_stepTx {s : EscrowState} (h : ReachableGuarded s) (o : Op)
    (hg : ∀ c n i r, o = Op.disputeMilestone c n i r → s.status = EscrowStatus.InProgress) :
    ReachableGuarded (stepTx s o) := by
  unfold stepTx
  cases hcase : execOp s o with
  | ok t => exact ReachableGuarded.step h hcase hg
  | error e => exact h

/-- C3 amended: along traces in which `dispute` is only invoked while the
escrow is `InProgress`, at most one milestone is Disputed at a time; the
unrestricted code admits two simultaneously Disputed milestones because
`disputeMilestone` does not check the escrow status. -/
theorem claim_C3_amended_guarded {s : EscrowState} (h : ReachableGuarded s) :
    AtMostOneDisputed s :=
  (dinv_reachableGuarded h).1

theorem claim_C3_amended_guarded_witness :
    AtMostOneDisputed
      (stepTx (stepTx (stepTx exFresh (Op.startWork 2 10))
        (Op.submitMilestone 2 11 0 "")) (Op.disputeMilestone 1 12 0 "bad")) := by
  apply claim_C3_amended_guarded
  apply reachableGuarded_stepTx
  · apply reachableGuarded_stepTx
    · apply reachableGuarded_stepTx
      · exact ReachableGuarded.init (by decide)
      · intro c n i r hx; cases hx
    · intro c n i r hx; cases hx
  · intro c n i r hx
    decide

/-- Fresh escrow after `startWork`. -/
def exStarted : EscrowState := stepTx exFresh (Op.startWork 2 10)

/-- After `startWork` and submission of milestone 0 at time 11. -/
def exSubmitted : EscrowState := stepTx exStarted (Op.submitMilestone 2 11 0 "")

/-- C5: resolving a disputed milestone with `beneficiary_amount ≤ amount` pays
the beneficiary share (if positive), refunds `amount - beneficiary_amount` to
the depositor (if positive) without touching `paid_amount` beyond the
beneficiary share, marks the milestone Resolved, and returns the escrow to
InProgress — or Released when it thereby becomes fully paid. -/
theorem claim_C5_resolve_effects {s : EscrowState} {c n i b : Nat} {r : String}
    (hInv : Inv s)
    (h1 : c = s.depositor ∨ c = s.beneficiary ∨ c ∈ s.arbiters)
    (h2 : s.status = EscrowStatus.Disputed)
    (h3 : (s.milestones.getD i zeroMilestone).status = MilestoneStatus.Disputed)
    (h4 : b ≤ (s.milestones.getD i zeroMilestone).amount) :
    ∃ t, resolveDispute s c n i b r = Except.ok t ∧
      t.paidAmount = s.paidAmount + b ∧
      t.transfers =
        s.transfers ++ (if 0 < b then [(s.beneficiary, b)] else []) ++
          (if 0 < (s.milestones.getD i zeroMilestone).amount - b then
            [(s.depositor, (s.milestones.getD i zeroMilestone).amount - b)]
          else []) ∧
      (t.milestones.getD i zeroMilestone).status = MilestoneStatus.Resolved ∧
      t.status =
        (if s.paidAmount + b = s.totalAmount then EscrowStatus.Released
        else EscrowStatus.InProgress) := by
  have hlen : i < s.milestones.length :=
    lt_length_of_getD_status (by rw [h3]; intro hx; cases hx)
  have h5 : (s.milestones.getD i zeroMilestone).amount ≤ s.escrowedAmount := by
    obtain ⟨_, _, he, _⟩ := hInv
    have hm := getD_mem hlen
    have hub := le_sumBy unpaidCap hm
    rw [unpaidCap_eq_amount (by tauto)] at hub
    omega
  refine ⟨resolveResult s n i b r,
    resolveDispute_eq_ok h1 h2 h3 h4 h5, rfl, rfl, ?_, rfl⟩
  have hms : (resolveResult s n i b r).milestones =
      s.milestones.set i
        { s.milestones.getD i zeroMilestone with
          status := MilestoneStatus.Resolved
          approvedAt := n
          disputeReason := r
          disputedBy :=
            if (s.milestones.getD i zeroMilestone).amount - b < b then s.beneficiary
            else s.depositor } := rfl
  show ((resolveResult s n i b r).milestones.getD i zeroMilestone).status =
    MilestoneStatus.Resolved
  rw [hms, getD_set_self hlen]

theorem claim_C5_resolve_effects_witness :
    ∃ t, resolveDispute exOneDisputed 1 20 0 40 "split" = Except.ok t ∧
      t.paidAmount = exOneDisputed.paidAmount + 40 ∧
      t.transfers =
        exOneDisputed.transfers ++
          (if 0 < 40 then [(exOneDisputed.beneficiary, 40)] else []) ++
          (if 0 < (exOneDisputed.milestones.getD 0 zeroMilestone).amount - 40 then
            [(exOneDisputed.depositor,
              (exOneDisputed.milestones.getD 0 zeroMilestone).amount - 40)]
          else []) ∧
      (t.milestones.getD 0 zeroMilestone).status = MilestoneStatus.Resolved ∧
      t.status =
        (if exOneDisputed.paidAmount + 40 = exOneDisputed.totalAmount then
          EscrowStatus.Released
        else EscrowStatus.InProgress) :=
  claim_C5_resolve_effects (by decide) (by decide) (by decide) (by decide) (by decide)

/-- C6 counterexample: an exactly even split (50/50 of a 100-amount milestone)
records the depositor as winner in `disputedBy`; there is no tie marker at all
(`winner = beneficiaryAmount > refundAmount ? beneficiary : depositor`). -/
theorem claim_C6_counterexample :
    resultOk (resolveDispute exOneDisputed 1 20 0 50 "even") = true ∧
    ((stepTx exOneDisputed (Op.resolveDispute 1 20 0 50 "even")).milestones.getD 0
        zeroMilestone).disputedBy = exOneDisputed.depositor ∧
    exOneDisputed.depositor ≠ exOneDisputed.beneficiary := by
  decide

/-- C6 amended: the recorded winner is the beneficiary exactly when the
beneficiary share strictly exceeds the refund; in every other case — the even
split included — the depositor is recorded as winner.  No tie is recorded. -/
theorem claim_C6_amended_winner {s : EscrowState} {c n i b : Nat} {r : String}
    {t : EscrowState} (h : resolveDispute s c n i b r = Except.ok t) :
    (t.milestones.getD i zeroMilestone).disputedBy =
      (if (s.milestones.getD i zeroMilestone).amount - b < b then s.beneficiary
      else s.depositor) := by
  obtain ⟨_, _, h3, _, _, ht⟩ := resolveDispute_ok h
  subst ht
  have hlen : i < s.milestones.length :=
    lt_length_of_getD_status (by rw [h3]; intro hx; cases hx)
  have hms : (resolveResult s n i b r).milestones =
      s.milestones.set i
        { s.milestones.getD i zeroMilestone with
          status := MilestoneStatus.Resolved
          approvedAt := n
          disputeReason := r
          disputedBy :=
            if (s.milestones.getD i zeroMilestone).amount - b < b then s.beneficiary
            else s.depositor } := rfl
  show ((resolveResult s n i b r).milestones.getD i zeroMilestone).disputedBy = _
  rw [hms, getD_set_self hlen]

theorem claim_C6_amended_winner_witness :
    ((stepTx exOneDisputed (Op.resolveDispute 1 20 0 50 "even")).milestones.getD 0
        zeroMilestone).disputedBy =
      (if (exOneDisputed.milestones.getD 0 zeroMilestone).amount - 50 < 50 then
        exOneDisputed.beneficiary
      else exOneDisputed.depositor) :=
  @claim_C6_amended_winner exOneDisputed 1 20 0 50 "even"
    (stepTx exOneDisputed (Op.resolveDispute 1 20 0 50 "even")) (by rfl)

/-- C7: for a Submitted milestone, the depositor's dispute at exactly
`submitted_at + DISPUTE_PERIOD` succeeds, while at `+ 1` it reverts with the
window-expiry error and the transaction leaves the state unchanged. -/
theorem claim_C7_window_boundary {s : EscrowState} {c i : Nat} {r : String}
    (h1 : c = s.depositor)
    (h2 : (s.milestones.getD i zeroMilestone).status = MilestoneStatus.Submitted) :
    resultOk (disputeMilestone s c
      ((s.milestones.getD i zeroMilestone).submittedAt + DISPUTE_PERIOD) i r) = true ∧
    disputeMilestone s c
      ((s.milestones.getD i zeroMilestone).submittedAt + DISPUTE_PERIOD + 1) i r =
      Except.error Err.disputePeriodExpired ∧
    stepTx s (Op.disputeMilestone c
      ((s.milestones.getD i zeroMilestone).submittedAt + DISPUTE_PERIOD + 1) i r) = s := by
  have hok := @disputeMilestone_eq_ok s c
    ((s.milestones.getD i zeroMilestone).submittedAt + DISPUTE_PERIOD) i r
    h1 h2 (Nat.le_refl _)
  have herr := @disputeMilestone_window_expired s c
    ((s.milestones.getD i zeroMilestone).submittedAt + DISPUTE_PERIOD + 1) i r
    h1 h2 (by omega)
  refine ⟨by rw [hok]; rfl, herr, ?_⟩
  unfold stepTx
  have hexec : execOp s (Op.disputeMilestone c
      ((s.milestones.getD i zeroMilestone).submittedAt + DISPUTE_PERIOD + 1) i r) =
      Except.error Err.disputePeriodExpired := herr
  rw [hexec]

theorem claim_C7_window_boundary_witness :
    resultOk (disputeMilestone exSubmitted 1
      ((exSubmitted.milestones.getD 0 zeroMilestone).submittedAt + DISPUTE_PERIOD)
      0 "w") = true ∧
    disputeMilestone exSubmitted 1
      ((exSubmitted.milestones.getD 0 zeroMilestone).submittedAt + DISPUTE_PERIOD + 1)
      0 "w" = Except.error Err.disputePeriodExpired ∧
    stepTx exSubmitted (Op.disputeMilestone 1
      ((exSubmitted.milestones.getD 0 zeroMilestone).submittedAt + DISPUTE_PERIOD + 1)
      0 "w") = exSubmitted :=
  claim_C7_window_boundary (by decide) (by decide)

/-- C8: `resolveDispute` with `beneficiary_amount` exceeding the milestone
amount reverts with the invalid-allocation error, and the transaction changes
nothing: no funds move, `paid_amount`, the custody counter and all statuses
stay as they were. -/
theorem claim_C8_invalid_allocation {s : EscrowState} {c n i b : Nat} {r : String}
    (h1 : c = s.depositor ∨ c = s.beneficiary ∨ c ∈ s.arbiters)
    (h2 : s.status = EscrowStatus.Disputed)
    (h3 : (s.milestones.getD i zeroMilestone).status = MilestoneStatus.Disputed)
    (h4 : (s.milestones.getD i zeroMilestone).amount < b) :
    resolveDispute s c n i b r = Except.error Err.invalidAllocation ∧
    stepTx s (Op.resolveDispute c n i b r) = s := by
  have herr := @resolveDispute_invalid_allocation s c n i b r h1 h2 h3 (by omega)
  refine ⟨herr, ?_⟩
  unfold stepTx
  have hexec : execOp s (Op.resolveDispute c n i b r) =
      Except.error Err.invalidAllocation := herr
  rw [hexec]

theorem claim_C8_invalid_allocation_witness :
    resolveDispute exOneDisputed 1 20 0 150 "too much" =
      Except.error Err.invalidAllocation ∧
    stepTx exOneDisputed (Op.resolveDispute 1 20 0 150 "too much") = exOneDisputed :=
  claim_C8_invalid_allocation (by decide) (by decide) (by decide) (by decide)

/-- C9: `startWork` succeeds exactly when the caller is the beneficiary, the
escrow is Pending, and work has not started.  On success it sets
`work_started`, moves the escrow to InProgress, and credits the (nonzero)
platform fee to the fee counter at this point; no other operation ever touches
the fee counter; and calling `startWork` again on the resulting state reverts
with the invalid-status error. -/
theorem claim_C9_startWork {s : EscrowState} {c : Nat} :
    ((resultOk (startWork s c) = true) ↔
      (c = s.beneficiary ∧ s.status = EscrowStatus.Pending ∧ s.workStarted = false)) ∧
    (∀ t, startWork s c = Except.ok t →
      t.workStarted = true ∧ t.status = EscrowStatus.InProgress ∧
      t.totalFees =
        (if 0 < s.platformFee then s.totalFees + s.platformFee else s.totalFees) ∧
      startWork t c = Except.error Err.invalidStatus) ∧
    (∀ (o : Op) (t : EscrowState), execOp s o = Except.ok t →
      (∀ c2 n2 : Nat, o ≠ Op.startWork c2 n2) → t.totalFees = s.totalFees) := by
  refine ⟨⟨?_, ?_⟩, ?_, ?_⟩
  · intro hok
    cases hcase : startWork s c with
    | ok t =>
        obtain ⟨ha, hb, hc, _⟩ := startWork_ok hcase
        exact ⟨ha, hb, hc⟩
    | error e =>
        rw [hcase] at hok
        cases hok
  · rintro ⟨h1, h2, h3⟩
    rw [startWork_eq_ok h1 h2 h3]
    rfl
  · intro t ht
    obtain ⟨h1, _, _, htr⟩ := startWork_ok ht
    subst htr
    refine ⟨rfl, rfl, rfl, ?_⟩
    show startWork (startWorkResult s) c = Except.error Err.invalidStatus
    unfold startWork startWorkResult
    dsimp only
    rw [if_pos h1, if_neg (by intro hx; cases hx)]
  · intro o t ht hno
    cases o with
    | startWork c2 n2 => exact absurd rfl (hno c2 n2)
    | submitMilestone c2 n2 i d =>
        obtain ⟨_, _, _, _, htr⟩ := submitMilestone_ok ht
        subst htr; rfl
    | approveMilestone c2 n2 i =>
        obtain ⟨_, _, _, _, _, htr⟩ := approveMilestone_ok ht
        subst htr; rfl
    | rejectMilestone c2 n2 i r =>
        obtain ⟨_, _, _, _, htr⟩ := rejectMilestone_ok ht
        subst htr; rfl
    | resubmitMilestone c2 n2 i d =>
        obtain ⟨_, _, _, _, htr⟩ := resubmitMilestone_ok ht
        subst htr; rfl
    | disputeMilestone c2 n2 i r =>
        obtain ⟨_, _, _, htr⟩ := disputeMilestone_ok ht
        subst htr; rfl
    | resolveDispute c2 n2 i b r =>
        obtain ⟨_, _, _, _, _, htr⟩ := resolveDispute_ok ht
        subst htr; rfl

theorem claim_C9_startWork_witness :
    resultOk (startWork exFresh 2) = true ∧
    (stepTx exFresh (Op.startWork 2 10)).totalFees =
      exFresh.totalFees + exFresh.platformFee := by
  have H := (@claim_C9_startWork exFresh 2).1.mpr ⟨by decide, by decide, by decide⟩
  exact ⟨H, by decide⟩

/-- A string is nonempty exactly when its byte/character length is positive. -/
theorem length_pos_of_ne_empty {d : String} (h : d ≠ "") : 0 < d.length := by
  cases d with
  | mk data =>
      cases data with
      | nil => exact absurd rfl h
      | cons a l => simp [String.length]

theorem submitResult_getD {s : EscrowState} {n i : Nat} {d : String}
    (hlen : i < s.milestones.length) :
    (submitResult s n i d).milestones.getD i zeroMilestone =
      { s.milestones.getD i zeroMilestone with
        status := MilestoneStatus.Submitted
        submittedAt := n
        description :=
          if 0 < d.length then d
          else (s.milestones.getD i zeroMilestone).description } := by
  show ((s.milestones.set i _).getD i zeroMilestone) = _
  exact getD_set_self hlen _

/-- C10: `submitMilestone` and `resubmitMilestone` record the call time as
`submitted_at` and set the status to Submitted; an empty description argument
leaves the stored description unchanged, while a nonempty one replaces it. -/
theorem claim_C10_description {s : EscrowState} {c n i : Nat} {d : String} :
    (∀ t, submitMilestone s c n i d = Except.ok t →
      (t.milestones.getD i zeroMilestone).submittedAt = n ∧
      (t.milestones.getD i zeroMilestone).status = MilestoneStatus.Submitted ∧
      (d = "" → (t.milestones.getD i zeroMilestone).description =
        (s.milestones.getD i zeroMilestone).description) ∧
      (d ≠ "" → (t.milestones.getD i zeroMilestone).description = d)) ∧
    (∀ t, resubmitMilestone s c n i d = Except.ok t →
      (t.milestones.getD i zeroMilestone).submittedAt = n ∧
      (t.milestones.getD i zeroMilestone).status = MilestoneStatus.Submitted ∧
      (d = "" → (t.milestones.getD i zeroMilestone).description =
        (s.milestones.getD i zeroMilestone).description) ∧
      (d ≠ "" → (t.milestones.getD i zeroMilestone).description = d)) := by
  have hcore : ∀ (hlen : i < s.milestones.length),
      ((submitResult s n i d).milestones.getD i zeroMilestone).submittedAt = n ∧
      ((submitResult s n i d).milestones.getD i zeroMilestone).status =
        MilestoneStatus.Submitted ∧
      (d = "" → ((submitResult s n i d).milestones.getD i zeroMilestone).description =
        (s.milestones.getD i zeroMilestone).description) ∧
      (d ≠ "" → ((submitResult s n i d).milestones.getD i zeroMilestone).description = d) := by
    intro hlen
    rw [submitResult_getD hlen]
    refine ⟨rfl, rfl, ?_, ?_⟩
    · intro hd
      subst hd
      rw [if_neg (by decide)]
    · intro hd
      rw [if_pos (length_pos_of_ne_empty hd)]
  constructor
  · intro t ht
    obtain ⟨_, _, hlen, _, htr⟩ := submitMilestone_ok ht
    subst htr
    exact hcore hlen
  · intro t ht
    obtain ⟨_, _, hlen, _, htr⟩ := resubmitMilestone_ok ht
    subst htr
    exact hcore hlen

theorem claim_C10_description_witness :
    ((stepTx exStarted (Op.submitMilestone 2 11 0 "newdesc")).milestones.getD 0
        zeroMilestone).submittedAt = 11 ∧
    ((stepTx exStarted (Op.submitMilestone 2 11 0 "newdesc")).milestones.getD 0
        zeroMilestone).description = "newdesc" ∧
    ((stepTx exStarted (Op.submitMilestone 2 11 0 "")).milestones.getD 0
        zeroMilestone).description =
      (exStarted.milestones.getD 0 zeroMilestone).description := by
  have H1 := (@claim_C10_description exStarted 2 11 0 "newdesc").1
    (stepTx exStarted (Op.submitMilestone 2 11 0 "newdesc")) (by rfl)
  have H2 := (@claim_C10_description exStarted 2 11 0 "").1
    (stepTx exStarted (Op.submitMilestone 2 11 0 "")) (by rfl)
  exact ⟨H1.1, H1.2.2.2 (by decide), H2.2.2.1 rfl⟩

end SecureFlow
